import Mathlib

/-!
Verification of the label-backup agent (Go) against its specification.

The development shallowly embeds the relevant parts of the source:

* `internal/discovery/discovery.go` and the revised discovery file
  (label parsing, retention parsing, label-value validation),
* `internal/scheduler/scheduler.go` (the tail of `jobFunc`: join of the
  dumper/writer workers, success decision, metadata sidecar, cleanup,
  notification payload),
* the webhook sender file (`sendAttempt`, HMAC signing, circuit breaker),
* `internal/gc/gc.go` (`Runner.RunGC` deletion sweep),
* `internal/writer/local.go` (`LocalWriter.Write` / `DeleteObject`
  path-traversal guards and the failed-copy cleanup path).

Go strings are modelled as Lean `String`s; byte streams as `List Nat`
(each element < 256); `time.Duration` and timestamps as `Int`
(nanoseconds, with two's-complement wrap made explicit where the Go
code multiplies `int64` values); Go functions returning `(T, error)`
become `Option`-valued functions.
-/

/-- Whitespace test used by Go's `strings.TrimSpace` / `strings.Fields`
(`unicode.IsSpace`), restricted to the Latin-1 space runes that can occur
in container label values: tab, newline, vertical tab, form feed,
carriage return, space, NEL (U+0085) and NBSP (U+00A0). -/
def goIsSpace (c : Char) : Bool :=
  c = ' ' || c = '\t' || c = '\n' || (c.toNat = 11) || (c.toNat = 12) ||
  c = '\r' || (c.toNat = 133) || (c.toNat = 160)

/-- Go `strings.TrimSpace`: drop leading and trailing whitespace. -/
def goTrimSpace (s : String) : String :=
  ⟨((s.toList.dropWhile goIsSpace).reverse.dropWhile goIsSpace).reverse⟩

/-- ASCII lower-casing of one character (Go `strings.ToLower` on the
ASCII subset that database/destination label values use). -/
def goToLowerChar (c : Char) : Char :=
  if 'A' ≤ c ∧ c ≤ 'Z' then Char.ofNat (c.toNat + 32) else c

/-- Go `strings.ToLower` (ASCII). -/
def goToLower (s : String) : String :=
  ⟨s.toList.map goToLowerChar⟩

/-- Go `strings.HasPrefix p` on lists of characters. -/
def goStartsWithL : List Char → List Char → Bool
  | _, [] => true
  | [], _ :: _ => false
  | c :: cs, p :: ps => c = p && goStartsWithL cs ps

/-- Go `strings.HasPrefix s p`. -/
def goStartsWith (s p : String) : Bool :=
  goStartsWithL s.toList p.toList

/-- Go `strings.HasSuffix s suf`. -/
def goEndsWith (s suf : String) : Bool :=
  goStartsWithL s.toList.reverse suf.toList.reverse

/-- Go `strings.TrimPrefix s p`: drop `p` from the front of `s` when it
is a prefix of `s`, otherwise return `s` unchanged. -/
def goTrimLead (s p : String) : String :=
  if goStartsWith s p then ⟨s.toList.drop p.toList.length⟩ else s

/-- Go `strings.TrimSuffix s suf`. -/
def goTrimTrail (s suf : String) : String :=
  if goEndsWith s suf then ⟨s.toList.take (s.toList.length - suf.toList.length)⟩ else s

/-- Splitting helper for Go `strings.Fields`: cut a character list at
whitespace runs (processing from the right). -/
def goFieldsL : List Char → List (List Char)
  | [] => []
  | c :: cs =>
    let rest := goFieldsL cs
    if goIsSpace c then rest
    else
      match cs, rest with
      | [], _ => [[c]]
      | d :: _, r :: rs => if goIsSpace d then [c] :: r :: rs else (c :: r) :: rs
      | _ :: _, [] => [[c]]

/-- Go `strings.Fields s`: the whitespace-separated fields of `s`. -/
def goFields (s : String) : List String :=
  (goFieldsL s.toList).map (fun l => ⟨l⟩)

/-- Go `strings.Trim s "/"`: strip leading and trailing slash runs. -/
def goTrimSlashes (s : String) : String :=
  ⟨((s.toList.dropWhile (· = '/')).reverse.dropWhile (· = '/')).reverse⟩

/-- Decimal digit test (`'0' <= c && c <= '9'` in the Go parsers). -/
def isDigitCh (c : Char) : Bool :=
  48 ≤ c.toNat && c.toNat ≤ 57

/-- Numeric value of a decimal digit character. -/
def digVal (c : Char) : Nat := c.toNat - 48

/-- Fold a digit list into the number it denotes. -/
def digitsVal (l : List Char) : Nat :=
  l.foldl (fun a c => a * 10 + digVal c) 0

/-- Go `strconv.Atoi` (= `ParseInt(s, 10, 64)`): optional sign, then a
non-empty run of decimal digits; values outside the `int64` range are an
error.  Returns `none` exactly when Go returns a non-nil error. -/
def goAtoi (s : String) : Option Int :=
  let cs := s.toList
  match cs with
  | [] => none
  | c :: rest =>
    let neg := c == '-'
    let digits := if c = '-' || c = '+' then rest else cs
    if digits.isEmpty || !(digits.all isDigitCh) then none
    else
      let n := digitsVal digits
      if neg then (if n > 2 ^ 63 then none else some (-(n : Int)))
      else (if n > 2 ^ 63 - 1 then none else some (n : Int))

/-- Go `time`'s `leadingInt`: consume leading digits; error (`none`) when
the value exceeds `2^63`. -/
def leadingIntL (l : List Char) : Option (Nat × List Char) :=
  let digs := l.takeWhile isDigitCh
  let n := digitsVal digs
  if n > 2 ^ 63 then none else some (n, l.dropWhile isDigitCh)

/-- Go `time`'s `leadingFraction`: consume the digits after the decimal
point, returning their value and count. -/
def leadingFracL (l : List Char) : Nat × Nat × List Char :=
  let digs := l.takeWhile isDigitCh
  (digitsVal digs, digs.length, l.dropWhile isDigitCh)

/-- The `unitMap` of Go `time.ParseDuration`, in nanoseconds. -/
def unitNanos : List Char → Option Nat
  | ['n', 's'] => some 1
  | ['u', 's'] => some 1000
  | ['µ', 's'] => some 1000
  | ['μ', 's'] => some 1000
  | ['m', 's'] => some 1000000
  | ['s'] => some 1000000000
  | ['m'] => some 60000000000
  | ['h'] => some 3600000000000
  | _ => none

/-- One `number [fraction] unit` group loop of Go `time.ParseDuration`,
fuel-recursive (the fuel is at least the length of the remaining input,
and every iteration consumes at least one character).  The fractional
contribution is computed as the exact floor of `f * unit / 10^k` where Go
uses `float64` arithmetic; the difference is below one nanosecond for
all inputs whose fraction Go does not itself truncate. -/
def durLoop : Nat → List Char → Nat → Option Nat
  | 0, _, _ => none
  | _ + 1, [], d => some d
  | fuel + 1, c :: cs, d =>
    if !(c = '.' || isDigitCh c) then none
    else
      match leadingIntL (c :: cs) with
      | none => none
      | some (v, s1) =>
        let pre := s1.length != (c :: cs).length
        let hasDot := s1.head? == some '.'
        let fr := leadingFracL s1.tail
        let f := if hasDot then fr.1 else 0
        let k := if hasDot then fr.2.1 else 0
        let s2 := if hasDot then fr.2.2 else s1
        let post := hasDot && fr.2.2.length != s1.tail.length
        if !pre && !post then none
        else
          let u := s2.takeWhile (fun x => !(x = '.' || isDigitCh x))
          let s3 := s2.dropWhile (fun x => !(x = '.' || isDigitCh x))
          if u.isEmpty then none
          else
            match unitNanos u with
            | none => none
            | some unit =>
              if v > 2 ^ 63 / unit then none
              else
                let v1 := v * unit + (if f > 0 then f * unit / 10 ^ k else 0)
                if v1 > 2 ^ 63 then none
                else
                  let d1 := d + v1
                  if d1 > 2 ^ 63 then none
                  else durLoop fuel s3 d1

/-- Go `time.ParseDuration` (value in nanoseconds; `none` on error). -/
def goParseDuration (s : String) : Option Int :=
  let cs := s.toList
  let neg :=
    match cs with
    | c :: _ => c == '-'
    | [] => false
  let cs1 :=
    match cs with
    | c :: rest => if c = '-' || c = '+' then rest else cs
    | [] => cs
  if cs1 = ['0'] then some 0
  else if cs1.isEmpty then none
  else
    match durLoop (cs1.length + 1) cs1 0 with
    | none => none
    | some d =>
      if neg then some (-(d : Int))
      else if d > 2 ^ 63 - 1 then none
      else some (d : Int)

/-- Two's-complement wrap of an integer into the `int64` range, as Go's
`int64` arithmetic silently does on overflow. -/
def wrap64 (x : Int) : Int := ((x + 2 ^ 63) % 2 ^ 64) - 2 ^ 63

/-- `int64` multiplication with Go's silent wrap-around. -/
def i64mul (a b : Int) : Int := wrap64 (a * b)

/-- `parseRetentionDuration` from `internal/discovery/discovery.go`:
trim; empty means 0 ("use global"); try `time.ParseDuration` (negative
result means 0); else a `d`-suffixed or plain integer is a number of
days, where the Go code computes `time.Duration(days) * 24 * time.Hour`
in wrapping `int64` arithmetic; negative or unparseable means 0. -/
def parseRetentionDuration (retentionStr : String) : Int :=
  let value := goTrimSpace retentionStr
  if value = "" then 0
  else
    match goParseDuration value with
    | some d => if d < 0 then 0 else d
    | none =>
      if goEndsWith value "d" then
        match goAtoi (goTrimTrail value "d") with
        | some days => if days < 0 then 0 else i64mul (i64mul days 24) 3600000000000
        | none => 0
      else
        match goAtoi value with
        | some days => if days < 0 then 0 else i64mul (i64mul days 24) 3600000000000
        | none => 0

/-- `model.BackupSpec` from `internal/model/spec.go`.  `Retention` is a
Go `time.Duration` (`int64` nanoseconds), here an `Int`.  The object-key
field (Go `Prefix`) is named `Pfx`, and `Type` (a Lean keyword) `Typ`. -/
structure BackupSpec where
  Enabled : Bool
  Typ : String
  Conn : String
  Database : String
  Cron : String
  Dest : String
  Pfx : String
  Webhook : String
  Retention : Int
  ContainerID : String
  ContainerName : String
deriving DecidableEq, Repr

/-- A container's label map, as an association list (Go `map[string]string`;
keys are unique in a Go map, lookup takes the first match). -/
def Labels := List (String × String)

/-- The `getLabel` closure of `parseLabels`: look the key up and trim the
value, or return the default when the label is absent. -/
def getLabel (labels : Labels) (key dflt : String) : String :=
  match List.lookup key labels with
  | some v => goTrimSpace v
  | none => dflt

/-- `parseLabels` from `internal/discovery/discovery.go` (the revision
without `validateLabelValues`): produce a spec when `backup.enabled` is
exactly "true", `backup.cron` and `backup.type` are non-empty after
trimming, and `backup.conn` is non-empty unless the lower-cased type is
"redis".  Returns `none` where the Go function returns `ok = false`. -/
def parseLabels (labels : Labels) (containerID containerName : String) :
    Option BackupSpec :=
  let enabledStr := getLabel labels "backup.enabled" ""
  if enabledStr ≠ "true" then none
  else
    let cron := getLabel labels "backup.cron" ""
    if cron = "" then none
    else
      let typeVal0 := getLabel labels "backup.type" ""
      if typeVal0 = "" then none
      else
        let typeVal := goToLower typeVal0
        let conn := getLabel labels "backup.conn" ""
        if conn = "" ∧ typeVal ≠ "redis" then none
        else some
          { Enabled := true
            Typ := typeVal
            Conn := conn
            Database := getLabel labels "backup.database" ""
            Cron := cron
            Dest := goToLower (getLabel labels "backup.dest" "local")
            Pfx := getLabel labels "backup.prefix" ""
            Webhook := getLabel labels "backup.webhook" ""
            Retention := parseRetentionDuration (getLabel labels "backup.retention" "")
            ContainerID := containerID
            ContainerName := goTrimLead containerName "/" }

/-- The valid `backup.type` values of `validateLabelValues`. -/
def validTypes : List String := ["postgres", "mysql", "mongodb", "redis"]

/-- `validateLabelValues` from the revised discovery file: `backup.dest`
must be empty, "local" or "remote"; `backup.type` must be a known kind;
the cron expression must have at least 5 whitespace-separated fields.
`true` corresponds to the Go function returning a nil error. -/
def validateLabelValues (spec : BackupSpec) : Bool :=
  (spec.Dest == "" || spec.Dest == "local" || spec.Dest == "remote") &&
  validTypes.contains spec.Typ &&
  decide ((goFields spec.Cron).length ≥ 5)

/-- `parseLabels` from the revised discovery file: the same extraction as
`parseLabels` above followed by the `validateLabelValues` check (the two
revisions are otherwise line-for-line identical). -/
def parseLabelsValidated (labels : Labels) (containerID containerName : String) :
    Option BackupSpec :=
  match parseLabels labels containerID containerName with
  | none => none
  | some spec => if validateLabelValues spec then some spec else none

/-- Reduce modulo 2^32 (32-bit word arithmetic). -/
def m32 (x : Nat) : Nat := x % 4294967296

/-- Right-rotation of a 32-bit word by `k` bits. -/
def rotr32 (n k : Nat) : Nat := m32 ((n >>> k) ||| (n <<< (32 - k)))

/-- The 64 SHA-256 round constants (decimal). -/
def shaK : List Nat :=
  [1116352408, 1899447441, 3049323471, 3921009573,
   961987163, 1508970993, 2453635748, 2870763221,
   3624381080, 310598401, 607225278, 1426881987,
   1925078388, 2162078206, 2614888103, 3248222580,
   3835390401, 4022224774, 264347078, 604807628,
   770255983, 1249150122, 1555081692, 1996064986,
   2554220882, 2821834349, 2952996808, 3210313671,
   3336571891, 3584528711, 113926993, 338241895,
   666307205, 773529912, 1294757372, 1396182291,
   1695183700, 1986661051, 2177026350, 2456956037,
   2730485921, 2820302411, 3259730800, 3345764771,
   3516065817, 3600352804, 4094571909, 275423344,
   430227734, 506948616, 659060556, 883997877,
   958139571, 1322822218, 1537002063, 1747873779,
   1955562222, 2024104815, 2227730452, 2361852424,
   2428436474, 2756734187, 3204031479, 3329325298]

/-- The SHA-256 initial hash value (decimal). -/
def shaH0 : List Nat :=
  [1779033703, 3144134277, 1013904242, 2773480762,
   1359893119, 2600822924, 528734635, 1541459225]

/-- Big-endian 8-byte encoding of a natural number. -/
def be64 (n : Nat) : List Nat :=
  [n >>> 56 % 256, n >>> 48 % 256, n >>> 40 % 256, n >>> 32 % 256,
   n >>> 24 % 256, n >>> 16 % 256, n >>> 8 % 256, n % 256]

/-- SHA-256 padding: append 0x80, zeros, and the 64-bit big-endian bit
length, reaching a multiple of 64 bytes. -/
def sha256pad (msg : List Nat) : List Nat :=
  msg ++ [0x80] ++ List.replicate ((119 - msg.length % 64) % 64) 0 ++
    be64 (msg.length * 8)

/-- Group a byte list into big-endian 32-bit words. -/
def wordsOfBytes : List Nat → List Nat
  | a :: b :: c :: d :: rest =>
    (a <<< 24 ||| b <<< 16 ||| c <<< 8 ||| d) :: wordsOfBytes rest
  | _ => []

/-- Extend the 16 words of a block to the 64-entry message schedule. -/
def shaSchedule (w16 : List Nat) : List Nat :=
  (List.range 48).foldl
    (fun w _ =>
      let L := w.length
      let s0 :=
        rotr32 (w.getD (L - 15) 0) 7 ^^^ rotr32 (w.getD (L - 15) 0) 18 ^^^
          (w.getD (L - 15) 0) >>> 3
      let s1 :=
        rotr32 (w.getD (L - 2) 0) 17 ^^^ rotr32 (w.getD (L - 2) 0) 19 ^^^
          (w.getD (L - 2) 0) >>> 10
      w ++ [m32 (w.getD (L - 16) 0 + s0 + w.getD (L - 7) 0 + s1)])
    w16

/-- One SHA-256 compression round. -/
def shaRound (st : List Nat) (kw : Nat × Nat) : List Nat :=
  match st with
  | [a, b, c, d, e, f, g, h] =>
    let S1 := rotr32 e 6 ^^^ rotr32 e 11 ^^^ rotr32 e 25
    let ch := (e &&& f) ^^^ ((e ^^^ 0xffffffff) &&& g)
    let t1 := m32 (h + S1 + ch + kw.1 + kw.2)
    let S0 := rotr32 a 2 ^^^ rotr32 a 13 ^^^ rotr32 a 22
    let maj := (a &&& b) ^^^ (a &&& c) ^^^ (b &&& c)
    let t2 := m32 (S0 + maj)
    [m32 (t1 + t2), a, b, c, m32 (d + t1), e, f, g]
  | _ => st

/-- Compress one 64-byte block into the running hash state. -/
def shaBlock (hsh : List Nat) (block : List Nat) : List Nat :=
  let w := shaSchedule (wordsOfBytes block)
  let fin := (shaK.zip w).foldl shaRound hsh
  (hsh.zip fin).map (fun p => m32 (p.1 + p.2))

/-- Split a list into 64-byte chunks (fuel-recursive). -/
def chunks64 : Nat → List Nat → List (List Nat)
  | 0, _ => []
  | _, [] => []
  | fuel + 1, l => l.take 64 :: chunks64 fuel (l.drop 64)

/-- SHA-256 of a byte list, as a 32-byte list. -/
def sha256 (msg : List Nat) : List Nat :=
  let padded := sha256pad msg
  let st := (chunks64 (padded.length + 1) padded).foldl shaBlock shaH0
  st.flatMap (fun w => [w >>> 24 % 256, w >>> 16 % 256, w >>> 8 % 256, w % 256])

/-- HMAC-SHA-256 (Go `crypto/hmac` over `crypto/sha256`, block size 64). -/
def hmacSha256 (key msg : List Nat) : List Nat :=
  let k0 := if key.length > 64 then sha256 key else key
  let k1 := k0 ++ List.replicate (64 - k0.length) 0
  sha256 ((k1.map (· ^^^ 0x5c)) ++ sha256 ((k1.map (· ^^^ 0x36)) ++ msg))

/-- Lower-case hex digit for a value below 16. -/
def hexDigit (n : Nat) : Char :=
  if n < 10 then Char.ofNat (48 + n) else Char.ofNat (87 + n)

/-- Go `hex.EncodeToString`: lower-case hex of a byte list. -/
def hexEncode (bytes : List Nat) : String :=
  ⟨bytes.flatMap (fun b => [hexDigit (b >>> 4 % 16), hexDigit (b % 16)])⟩

/-- Bytes of an ASCII string (Go `[]byte(s)` for the ASCII values used
in webhook secrets). -/
def strBytes (s : String) : List Nat := s.toList.map Char.toNat

/-- `HMACHeaderName` from the webhook sender file. -/
def HMACHeaderName : String := "X-LabelBackup-Signature-SHA256"

/-- An HTTP request as assembled by `sendAttempt`. -/
structure HTTPRequest where
  method : String
  url : String
  body : List Nat
  headers : List (String × String)
deriving DecidableEq, Repr

/-- `sendAttempt` from the webhook sender file (the request-building
part): POST the marshalled payload with `Content-Type` and `User-Agent`
headers, and, when a secret is configured, the HMAC signature header
computed over the same `jsonData` bytes that form the request body.
`jsonData` is the output of `json.Marshal(payload)`; the marshalling
itself is kept abstract (the payload carries a `float64` field), the
claims concern the bytes actually delivered. -/
def sendAttempt (jsonData : List Nat) (targetURL secretKey : String) : HTTPRequest :=
  { method := "POST"
    url := targetURL
    body := jsonData
    headers :=
      [("Content-Type", "application/json"), ("User-Agent", "LabelBackupAgent/1.0")] ++
        (if secretKey ≠ "" then
          [(HMACHeaderName, hexEncode (hmacSha256 (strBytes secretKey) jsonData))]
        else []) }

/-- Circuit breaker states (webhook sender file). -/
inductive CBState where
  | Closed
  | Open
  | HalfOpen
deriving DecidableEq, Repr

/-- `CircuitBreaker` (webhook sender file).  `lastFailureTime` and
`recoveryTimeout` are nanosecond instants/durations. -/
structure CircuitBreaker where
  state : CBState
  failureCount : Nat
  lastFailureTime : Int
  failureThreshold : Nat
  recoveryTimeout : Int
deriving DecidableEq, Repr

/-- `NewCircuitBreaker`: closed, zero failures (the Go zero `time.Time`
is modelled as instant 0). -/
def NewCircuitBreaker (failureThreshold : Nat) (recoveryTimeout : Int) : CircuitBreaker :=
  { state := .Closed, failureCount := 0, lastFailureTime := 0,
    failureThreshold := failureThreshold, recoveryTimeout := recoveryTimeout }

/-- The breaker of `NewSender`: threshold 5, recovery timeout 5 minutes. -/
def senderBreaker : CircuitBreaker := NewCircuitBreaker 5 (5 * 60 * 1000000000)

/-- Result of one `CircuitBreaker.Call`: either the wrapped function ran
(`executed`, carrying its error if any — in the sender the function is
the whole HTTP retry loop, so `executed` is where network I/O happens),
or the call was short-circuited without invoking it. -/
inductive CBOutcome where
  | shortCircuit (msg : String)
  | executed (res : Option String)
deriving DecidableEq, Repr

/-- The half-open trial of `CircuitBreaker.Call`: one attempt; success
closes the breaker, failure re-opens it. -/
def cbHalfOpenTrial (cb : CircuitBreaker) (now : Int) (fnRes : Option String) :
    CircuitBreaker × CBOutcome :=
  match fnRes with
  | some e =>
    ({ cb with failureCount := cb.failureCount + 1, lastFailureTime := now,
               state := .Open }, .executed (some e))
  | none => ({ cb with state := .Closed, failureCount := 0 }, .executed none)

/-- `CircuitBreaker.Call` from the webhook sender file.  `now` is the
current instant; `fnRes` is what the wrapped function would return if it
were invoked.  In `Open` state the call transitions to half-open once
the recovery timeout has elapsed since the last failure, and is
otherwise rejected with "circuit breaker is open" without invoking the
function.  In `Closed` state failures increment the counter and open
the breaker at the threshold; a success resets the counter. -/
def CircuitBreaker.Call (cb : CircuitBreaker) (now : Int) (fnRes : Option String) :
    CircuitBreaker × CBOutcome :=
  match cb.state with
  | .Open =>
    if now - cb.lastFailureTime ≥ cb.recoveryTimeout then
      cbHalfOpenTrial { cb with state := .HalfOpen } now fnRes
    else (cb, .shortCircuit "circuit breaker is open")
  | .HalfOpen => cbHalfOpenTrial cb now fnRes
  | .Closed =>
    match fnRes with
    | some e =>
      let fc := cb.failureCount + 1
      ({ cb with failureCount := fc, lastFailureTime := now,
                 state := if fc ≥ cb.failureThreshold then .Open else .Closed },
        .executed (some e))
    | none => ({ cb with failureCount := 0 }, .executed none)

/-- `BackupObjectMeta` from `internal/writer/writer.go` (`LastModified`
as a nanosecond instant). -/
structure BackupObjectMeta where
  Key : String
  LastModified : Int
  Size : Int
deriving DecidableEq, Repr

/-- The effective retention chosen by `gc.NewRunner`: the spec's
retention when positive, else the global retention period. -/
def effectiveRetention (specRetention globalRetention : Int) : Int :=
  if specRetention > 0 then specRetention else globalRetention

/-- The deletion sweep of `Runner.RunGC` from `internal/gc/gc.go`,
returning the keys passed to `DeleteObject`: nothing when the effective
retention is not positive; nothing in dry-run mode (deletions are only
logged); otherwise exactly the listed objects whose `lastModified` is
strictly before `now - retention`.  Failed deletes are counted by the Go
code but do not change which keys `DeleteObject` is invoked on. -/
def runGCDeletes (retention : Int) (dryRun : Bool) (now : Int)
    (objects : List BackupObjectMeta) : List String :=
  if retention ≤ 0 then []
  else if dryRun then []
  else (objects.filter (fun o => o.LastModified < now - retention)).map (fun o => o.Key)

/-- One step of Go `path/filepath.Clean` (unix): skip empty and "."
components; ".." pops a component when one is there, accumulates when
the path is relative, and is dropped at the root of an absolute path. -/
def cleanStep (rooted : Bool) (stack : List String) (c : String) : List String :=
  if c = "" ∨ c = "." then stack
  else if c = ".." then
    match stack with
    | s :: rest => if s = ".." then c :: s :: rest else rest
    | [] => if rooted then [] else [".."]
  else c :: stack

/-- Split a character list at '/' separators, keeping empty segments. -/
def splitSlashL : List Char → List (List Char)
  | [] => [[]]
  | c :: cs =>
    let r := splitSlashL cs
    if c = '/' then [] :: r
    else
      match r with
      | h :: t => (c :: h) :: t
      | [] => [[c]]

/-- The path components of a string (split at '/'). -/
def splitSlash (p : String) : List String :=
  (splitSlashL p.toList).map (fun l => ⟨l⟩)

/-- Join path components with '/' separators. -/
def joinComponents : List String → String
  | [] => ""
  | [x] => x
  | x :: xs => x ++ "/" ++ joinComponents xs

/-- Go `filepath.Clean` for unix paths. -/
def pathClean (p : String) : String :=
  let rooted := goStartsWith p "/"
  let stack := (splitSlash p).foldl (cleanStep rooted) []
  let body := joinComponents stack.reverse
  if rooted then (if body = "" then "/" else "/" ++ body)
  else (if body = "" then "." else body)

/-- Go `filepath.Join` of two elements (unix): empty elements are
dropped, the rest concatenated with "/" and cleaned. -/
def joinPath (a b : String) : String :=
  if a = "" then (if b = "" then "" else pathClean b)
  else if b = "" then pathClean a
  else pathClean (a ++ "/" ++ b)

/-- Go `filepath.IsAbs` (unix). -/
def isAbsPath (p : String) : Bool := goStartsWith p "/"

/-- Go `filepath.Abs` (unix): clean an absolute path, or join it onto
the working directory `cwd` first. -/
def goAbs (cwd p : String) : String :=
  if isAbsPath p then pathClean p else joinPath cwd p

/-- Modelled from the spec: "the resolved absolute target must remain a
descendant of the resolved base" — the cleaned target equals the cleaned
base or lies strictly below it (one more separator).  This is the
containment the spec's path-traversal guard demands; it is compared
against what the code's `strings.HasPrefix` check accepts. -/
def isDescendant (base target : String) : Bool :=
  let b := pathClean base
  let t := pathClean target
  t = b || goStartsWith t (if b = "/" then "/" else b ++ "/")

/-- The target of `LocalWriter.DeleteObject` from
`internal/writer/local.go`: the key is joined onto the base path, both
are made absolute, and `os.Remove` runs on the target unless the
`strings.HasPrefix` guard rejects it (`none`).  `ReadObject` applies the
identical guard before `os.Open`. -/
def localDeleteTarget (cwd basePath key : String) : Option String :=
  let filePath := joinPath basePath key
  let absBasePath := goAbs cwd basePath
  let absFilePath := goAbs cwd filePath
  if goStartsWith absFilePath absBasePath then some filePath else none

/-- Result quadruple of `LocalWriter.Write`. -/
structure WriteResult where
  destination : String
  bytesWritten : Int
  checksum : String
  err : Option String
deriving DecidableEq, Repr

/-- `LocalWriter.Write` from `internal/writer/local.go`.  The filesystem
is a list of existing file paths; `diskOk` is the outcome of the
pre-write `CheckDiskSpace`; `data` is the byte stream; `copyFail = some
(consumed, msg)` makes the `io.Copy` fail with `msg` after `consumed`
bytes, `none` lets it finish.  Mirrors the Go sequence: disk check;
backslash normalisation and `filepath.Clean` of the object name; the
absolute-path/".." rejection; the `strings.HasPrefix` containment check
of the absolute target against the absolute base; `os.Create`; the
copy tee'd through SHA-256, with the partial file removed and empty
results returned on a copy error. -/
def localWrite (cwd : String) (fs : List String) (diskOk : Bool)
    (basePath key : String) (data : List Nat) (copyFail : Option (Nat × String)) :
    List String × WriteResult :=
  if ¬ diskOk then (fs, ⟨"", 0, "", some "disk space check failed before write"⟩)
  else
    let cleanedObjectName := pathClean ⟨key.toList.map (fun c => if c = '\\' then '/' else c)⟩
    if isAbsPath cleanedObjectName ∨ goStartsWith cleanedObjectName ".." then
      (fs, ⟨"", 0, "", some ("malformed objectName: " ++ key)⟩)
    else
      let filePath := joinPath basePath cleanedObjectName
      let absBasePath := goAbs cwd basePath
      let absFilePath := goAbs cwd filePath
      if ¬ goStartsWith absFilePath absBasePath then
        (fs, ⟨"", 0, "", some ("target filePath " ++ absFilePath ++ " is outside basePath " ++ absBasePath)⟩)
      else
        let fs1 := if filePath ∈ fs then fs else filePath :: fs
        match copyFail with
        | some (_, msg) =>
          (fs1.filter (fun p => p ≠ filePath),
           ⟨"", 0, "", some ("failed to write backup data to " ++ filePath ++ ": " ++ msg)⟩)
        | none => (fs1, ⟨filePath, (data.length : Int), hexEncode (sha256 data), none⟩)

/-- `webhook.NotificationPayload` (webhook sender file).  `DurationSeconds`
(a Go `float64`) is modelled as the elapsed nanoseconds; `BackupPfx`
renders the Go `BackupPrefix` field. -/
structure NotificationPayload where
  ContainerID : String
  ContainerName : String
  DatabaseType : String
  DatabaseName : String
  DestinationURL : String
  Success : Bool
  Error : String
  BackupSize : Int
  DurationSeconds : Int
  Timestamp : String
  CronSchedule : String
  BackupPfx : String
  DestinationType : String
deriving DecidableEq, Repr

/-- `writer.BackupMetadata` from `internal/writer/metadata.go` (the
sidecar JSON).  `Timestamp` is the rendered start time; `DurationSeconds`
is modelled as nanoseconds as in the payload. -/
structure BackupMetadata where
  Timestamp : String
  ContainerID : String
  ContainerName : String
  DatabaseType : String
  DatabaseName : String
  BackupSize : Int
  Checksum : String
  CompressionType : String
  Version : String
  Destination : String
  DurationSeconds : Int
  Success : Bool
  Error : String
deriving DecidableEq, Repr

/-- The join of the two pipeline workers in `jobFunc`
(`internal/scheduler/scheduler.go`): the dumper goroutine's error, the
writer goroutine's `Write` results. -/
structure JobOutcome where
  dumpErr : Option String
  writeErr : Option String
  bytesWritten : Int
  backupChecksum : String
  destinationURL : String
deriving DecidableEq, Repr

/-- What the tail of `jobFunc` does after both workers have joined. -/
structure JobReport where
  payload : NotificationPayload
  sidecarKey : Option String
  sidecarMeta : Option BackupMetadata
  sidecarWritten : Bool
  partialDeleteAttempted : Bool
  enqueued : Bool
deriving DecidableEq, Repr

/-- The tail of `jobFunc` from `internal/scheduler/scheduler.go` (after
`wg.Wait()`): combine the worker errors into `finalErrorMsg`; the job
succeeds iff neither worker errored; fill the notification payload
(`payload.Error` is only set on failure); on success with bytes written,
attempt the metadata sidecar at `objectName + ".metadata.json"` with the
write result's size and checksum (`metadataWriteFails` tells whether that
`writer.Write` fails — a failure is only logged); on failure with bytes
written, attempt the partial-object cleanup; finally enqueue the payload
(a webhook sender is configured). -/
def jobFinish (spec : BackupSpec) (containerID objectName timestampStr : String)
    (destinationType : String) (durationNs : Int) (o : JobOutcome)
    (metadataWriteFails : Bool) : JobReport :=
  let m1 := match o.dumpErr with
    | some d => "dump error: " ++ d
    | none => ""
  let finalErrorMsg := match o.writeErr with
    | some w => (if m1 ≠ "" then m1 ++ "; " else m1) ++ "write error: " ++ w
    | none => m1
  let jobSuccess := o.dumpErr.isNone && o.writeErr.isNone
  let payload : NotificationPayload :=
    { ContainerID := containerID
      ContainerName := spec.ContainerName
      DatabaseType := spec.Typ
      DatabaseName := spec.Database
      DestinationURL := o.destinationURL
      Success := jobSuccess
      Error := if jobSuccess then "" else finalErrorMsg
      BackupSize := o.bytesWritten
      DurationSeconds := durationNs
      Timestamp := timestampStr
      CronSchedule := spec.Cron
      BackupPfx := spec.Pfx
      DestinationType := destinationType }
  let attemptSidecar := jobSuccess && o.bytesWritten > 0
  let metadata : BackupMetadata :=
    { Timestamp := timestampStr
      ContainerID := containerID
      ContainerName := spec.ContainerName
      DatabaseType := spec.Typ
      DatabaseName := spec.Database
      BackupSize := o.bytesWritten
      Checksum := o.backupChecksum
      CompressionType := "gzip"
      Version := "1.0"
      Destination := o.destinationURL
      DurationSeconds := durationNs
      Success := jobSuccess
      Error := payload.Error }
  { payload := payload
    sidecarKey := if attemptSidecar then some (objectName ++ ".metadata.json") else none
    sidecarMeta := if attemptSidecar then some metadata else none
    sidecarWritten := attemptSidecar && !metadataWriteFails
    partialDeleteAttempted := !jobSuccess && o.bytesWritten > 0
    enqueued := true }

/-- The pointwise label relation of claim C10: equal keys; the values of
`backup.type` and `backup.dest` equal up to surrounding whitespace and
ASCII letter case; every other value equal up to surrounding
whitespace. -/
def labelValuesCongruent (p q : String × String) : Prop :=
  p.1 = q.1 ∧
  (if p.1 = "backup.type" ∨ p.1 = "backup.dest"
    then goToLower (goTrimSpace p.2) = goToLower (goTrimSpace q.2)
    else goTrimSpace p.2 = goTrimSpace q.2)

instance (p q : String × String) : Decidable (labelValuesCongruent p q) := by
  unfold labelValuesCongruent
  infer_instance

/-- C5: in every GC run, `DeleteObject` is invoked only on listed objects
whose `lastModified` is strictly before `now - effectiveRetention`; when
the listing's keys are distinct (as a store listing's are), an object
with `lastModified ≥ now - effectiveRetention` is never deleted. -/
theorem C5_gc_deletes_only_expired (specRet globalRet now : Int) (dryRun : Bool)
    (objects : List BackupObjectMeta)
    (hkeys : (objects.map BackupObjectMeta.Key).Nodup) :
    (∀ key ∈ runGCDeletes (effectiveRetention specRet globalRet) dryRun now objects,
        ∃ o ∈ objects, o.Key = key ∧
          o.LastModified < now - effectiveRetention specRet globalRet) ∧
    (∀ o ∈ objects, now - effectiveRetention specRet globalRet ≤ o.LastModified →
        o.Key ∉ runGCDeletes (effectiveRetention specRet globalRet) dryRun now objects) := by
  constructor
  · intro key hk
    unfold runGCDeletes at hk
    split at hk
    · simp at hk
    · split at hk
      · simp at hk
      · simp only [List.mem_map, List.mem_filter] at hk
        obtain ⟨o, ⟨ho, hlt⟩, hkey⟩ := hk
        exact ⟨o, ho, hkey, by simpa using hlt⟩
  · intro o ho hge hk
    unfold runGCDeletes at hk
    split at hk
    · simp at hk
    · split at hk
      · simp at hk
      · simp only [List.mem_map, List.mem_filter] at hk
        obtain ⟨o2, ⟨ho2, hlt⟩, hkey⟩ := hk
        have heq : o2 = o := List.inj_on_of_nodup_map hkeys ho2 ho hkey
        subst heq
        simp only [decide_eq_true_eq] at hlt
        omega

/-- Witness for C5 at a concrete run: retention 100 at instant 1000, one
object old enough to delete and one too recent. -/
theorem C5_gc_witness :
    (∀ key ∈ runGCDeletes (effectiveRetention 100 50) false 1000
        [⟨"old", 800, 10⟩, ⟨"new", 950, 5⟩],
        ∃ o ∈ ([⟨"old", 800, 10⟩, ⟨"new", 950, 5⟩] : List BackupObjectMeta),
          o.Key = key ∧ o.LastModified < 1000 - effectiveRetention 100 50) ∧
    (∀ o ∈ ([⟨"old", 800, 10⟩, ⟨"new", 950, 5⟩] : List BackupObjectMeta),
        1000 - effectiveRetention 100 50 ≤ o.LastModified →
        o.Key ∉ runGCDeletes (effectiveRetention 100 50) false 1000
          [⟨"old", 800, 10⟩, ⟨"new", 950, 5⟩]) :=
  C5_gc_deletes_only_expired 100 50 1000 false
    [⟨"old", 800, 10⟩, ⟨"new", 950, 5⟩] (by decide)

/-- C8: when both pipeline workers finished cleanly with bytes written
and the subsequent metadata-sidecar write fails, the job outcome is
unchanged — the job is still reported successful, the payload is the
same as if the sidecar write had succeeded, the notification is still
enqueued with `success = true` and an empty error string; only the
sidecar itself is missing. -/
theorem C8_metadata_failure_keeps_success (spec : BackupSpec)
    (cid obj ts dty : String) (dur : Int) (o : JobOutcome)
    (hd : o.dumpErr = none) (hw : o.writeErr = none) (hb : 0 < o.bytesWritten) :
    (jobFinish spec cid obj ts dty dur o true).payload.Success = true ∧
    (jobFinish spec cid obj ts dty dur o true).payload.Error = "" ∧
    (jobFinish spec cid obj ts dty dur o true).enqueued = true ∧
    (jobFinish spec cid obj ts dty dur o true).sidecarWritten = false ∧
    (jobFinish spec cid obj ts dty dur o true).payload =
      (jobFinish spec cid obj ts dty dur o false).payload := by
  simp [jobFinish, hd, hw]

/-- Witness for C8: a clean 42-byte run whose sidecar write fails. -/
theorem C8_metadata_failure_witness :
    (jobFinish ⟨true, "postgres", "c", "db", "* * * * *", "local", "", "", 0, "cid", "nm"⟩
        "cid" "k.dump.gz" "t" "local" 5 ⟨none, none, 42, "abc", "/backups/k.dump.gz"⟩
        true).payload.Success = true ∧
    (jobFinish ⟨true, "postgres", "c", "db", "* * * * *", "local", "", "", 0, "cid", "nm"⟩
        "cid" "k.dump.gz" "t" "local" 5 ⟨none, none, 42, "abc", "/backups/k.dump.gz"⟩
        true).payload.Error = "" ∧
    (jobFinish ⟨true, "postgres", "c", "db", "* * * * *", "local", "", "", 0, "cid", "nm"⟩
        "cid" "k.dump.gz" "t" "local" 5 ⟨none, none, 42, "abc", "/backups/k.dump.gz"⟩
        true).enqueued = true ∧
    (jobFinish ⟨true, "postgres", "c", "db", "* * * * *", "local", "", "", 0, "cid", "nm"⟩
        "cid" "k.dump.gz" "t" "local" 5 ⟨none, none, 42, "abc", "/backups/k.dump.gz"⟩
        true).sidecarWritten = false ∧
    (jobFinish ⟨true, "postgres", "c", "db", "* * * * *", "local", "", "", 0, "cid", "nm"⟩
        "cid" "k.dump.gz" "t" "local" 5 ⟨none, none, 42, "abc", "/backups/k.dump.gz"⟩
        true).payload =
      (jobFinish ⟨true, "postgres", "c", "db", "* * * * *", "local", "", "", 0, "cid", "nm"⟩
        "cid" "k.dump.gz" "t" "local" 5 ⟨none, none, 42, "abc", "/backups/k.dump.gz"⟩
        false).payload :=
  C8_metadata_failure_keeps_success _ "cid" "k.dump.gz" "t" "local" 5
    ⟨none, none, 42, "abc", "/backups/k.dump.gz"⟩ rfl rfl (by decide)

/-- C9: whenever `LocalWriter.Write` would reach the copy stage (the
disk-space and path guards pass, expressed as: the same write with a
successful copy returns no error), a copy failure after any number of
consumed bytes yields an empty destination, zero `bytesWritten`, an
empty checksum together with an error, and the partial destination file
is absent from the resulting filesystem. -/
theorem C9_local_write_copy_failure (cwd : String) (fs : List String)
    (diskOk : Bool) (basePath key : String) (data : List Nat)
    (consumed : Nat) (msg : String)
    (hok : ((localWrite cwd fs diskOk basePath key data none).2).err = none) :
    (localWrite cwd fs diskOk basePath key data (some (consumed, msg))).2.destination = "" ∧
    (localWrite cwd fs diskOk basePath key data (some (consumed, msg))).2.bytesWritten = 0 ∧
    (localWrite cwd fs diskOk basePath key data (some (consumed, msg))).2.checksum = "" ∧
    (localWrite cwd fs diskOk basePath key data (some (consumed, msg))).2.err.isSome ∧
    ((localWrite cwd fs diskOk basePath key data none).2).destination ∉
      (localWrite cwd fs diskOk basePath key data (some (consumed, msg))).1 := by
  by_cases h1 : diskOk
  · by_cases h2 : isAbsPath (pathClean ⟨key.data.map (fun c => if c = '\\' then '/' else c)⟩) ∨
        goStartsWith (pathClean ⟨key.data.map (fun c => if c = '\\' then '/' else c)⟩) ".."
    · simp [localWrite, h1, h2] at hok
    · by_cases h3 : goStartsWith
          (goAbs cwd (joinPath basePath
            (pathClean ⟨key.data.map (fun c => if c = '\\' then '/' else c)⟩)))
          (goAbs cwd basePath)
      · simp [localWrite, h1, h2, h3, List.mem_filter]
      · simp [localWrite, h1, h2, h3] at hok
  · simp [localWrite, h1] at hok

/-- Witness for C9: a three-byte stream failing after two bytes. -/
theorem C9_local_write_witness :
    (localWrite "/" [] true "/backups" "pg/x.dump.gz" [1, 2, 3]
        (some (2, "broken pipe"))).2.destination = "" ∧
    (localWrite "/" [] true "/backups" "pg/x.dump.gz" [1, 2, 3]
        (some (2, "broken pipe"))).2.bytesWritten = 0 ∧
    (localWrite "/" [] true "/backups" "pg/x.dump.gz" [1, 2, 3]
        (some (2, "broken pipe"))).2.checksum = "" ∧
    (localWrite "/" [] true "/backups" "pg/x.dump.gz" [1, 2, 3]
        (some (2, "broken pipe"))).2.err.isSome ∧
    ((localWrite "/" [] true "/backups" "pg/x.dump.gz" [1, 2, 3] none).2).destination ∉
      (localWrite "/" [] true "/backups" "pg/x.dump.gz" [1, 2, 3]
        (some (2, "broken pipe"))).1 :=
  C9_local_write_copy_failure "/" [] true "/backups" "pg/x.dump.gz" [1, 2, 3]
    2 "broken pipe" (by decide)

/-- C1 (amended): for every `jobFunc` invocation, the job is reported
successful iff the dumper worker and the writer worker both finished
cleanly; `bytesWritten > 0` is not part of the success decision.  On
success with `bytesWritten > 0` the metadata sidecar write is attempted
at `<key>.metadata.json`, its `backup_size_bytes` and `checksum` equal
the write result, and it exists whenever that second write does not
fail; no sidecar is attempted otherwise. -/
theorem C1_success_and_sidecar (spec : BackupSpec) (cid obj ts dty : String)
    (dur : Int) (o : JobOutcome) (metaFails : Bool) :
    ((jobFinish spec cid obj ts dty dur o metaFails).payload.Success = true ↔
      (o.dumpErr = none ∧ o.writeErr = none)) ∧
    ((jobFinish spec cid obj ts dty dur o metaFails).payload.Success = true →
      0 < o.bytesWritten →
      (jobFinish spec cid obj ts dty dur o metaFails).sidecarKey =
          some (obj ++ ".metadata.json") ∧
        ∃ md, (jobFinish spec cid obj ts dty dur o metaFails).sidecarMeta = some md ∧
          md.BackupSize = o.bytesWritten ∧ md.Checksum = o.backupChecksum ∧
        (metaFails = false →
          (jobFinish spec cid obj ts dty dur o metaFails).sidecarWritten = true)) ∧
    ((jobFinish spec cid obj ts dty dur o metaFails).sidecarKey ≠ none →
      (jobFinish spec cid obj ts dty dur o metaFails).payload.Success = true ∧
        0 < o.bytesWritten) := by
  refine ⟨?_, ?_, ?_⟩
  · cases hd : o.dumpErr <;> cases hw : o.writeErr <;> simp [jobFinish, hd, hw]
  · intro hs hb
    cases hd : o.dumpErr <;> cases hw : o.writeErr <;>
      simp [jobFinish, hd, hw, hb] at hs ⊢
  · intro hk
    cases hd : o.dumpErr <;> cases hw : o.writeErr <;>
      by_cases hb : 0 < o.bytesWritten <;>
      simp [jobFinish, hd, hw, hb] at hk ⊢
  
/-- Counterexample to C1 as stated: with both workers clean but zero
bytes written, `jobFunc` reports the job successful even though
`bytesWritten = 0` and no metadata sidecar is written — so success is
not equivalent to "dumper clean ∧ writer clean ∧ bytesWritten > 0", and
a reported success does not imply a sidecar exists. -/
theorem C1_counterexample :
    (jobFinish ⟨true, "postgres", "c", "db", "* * * * *", "local", "", "", 0, "cid", "nm"⟩
        "cid" "k.dump.gz" "t" "local" 5 ⟨none, none, 0, "", ""⟩
        false).payload.Success = true ∧
    ¬ ((jobFinish ⟨true, "postgres", "c", "db", "* * * * *", "local", "", "", 0, "cid", "nm"⟩
        "cid" "k.dump.gz" "t" "local" 5 ⟨none, none, 0, "", ""⟩
        false).payload.Success = true ↔
        ((none : Option String) = none ∧ (none : Option String) = none ∧
          (0 : Int) < 0)) ∧
    (jobFinish ⟨true, "postgres", "c", "db", "* * * * *", "local", "", "", 0, "cid", "nm"⟩
        "cid" "k.dump.gz" "t" "local" 5 ⟨none, none, 0, "", ""⟩
        false).sidecarKey = none ∧
    (jobFinish ⟨true, "postgres", "c", "db", "* * * * *", "local", "", "", 0, "cid", "nm"⟩
        "cid" "k.dump.gz" "t" "local" 5 ⟨none, none, 0, "", ""⟩
        false).sidecarWritten = false := by
  refine ⟨by decide, ?_, by decide, by decide⟩
  intro h
  exact absurd ((h.mp (by decide)).2.2) (by decide)

/-- Witness for C1 (amended) at a clean 42-byte run. -/
theorem C1_success_witness :
    ((jobFinish ⟨true, "postgres", "c", "db", "* * * * *", "local", "", "", 0, "cid", "nm"⟩
        "cid" "k.dump.gz" "t" "local" 5 ⟨none, none, 42, "abc", "/b/k.dump.gz"⟩
        false).payload.Success = true ↔
      ((none : Option String) = none ∧ (none : Option String) = none)) ∧
    ((jobFinish ⟨true, "postgres", "c", "db", "* * * * *", "local", "", "", 0, "cid", "nm"⟩
        "cid" "k.dump.gz" "t" "local" 5 ⟨none, none, 42, "abc", "/b/k.dump.gz"⟩
        false).payload.Success = true →
      (0 : Int) < 42 →
      (jobFinish ⟨true, "postgres", "c", "db", "* * * * *", "local", "", "", 0, "cid", "nm"⟩
        "cid" "k.dump.gz" "t" "local" 5 ⟨none, none, 42, "abc", "/b/k.dump.gz"⟩
        false).sidecarKey = some ("k.dump.gz" ++ ".metadata.json") ∧
      ∃ md, (jobFinish ⟨true, "postgres", "c", "db", "* * * * *", "local", "", "", 0, "cid", "nm"⟩
        "cid" "k.dump.gz" "t" "local" 5 ⟨none, none, 42, "abc", "/b/k.dump.gz"⟩
        false).sidecarMeta = some md ∧
        md.BackupSize = (42 : Int) ∧ md.Checksum = "abc" ∧
      (false = false →
        (jobFinish ⟨true, "postgres", "c", "db", "* * * * *", "local", "", "", 0, "cid", "nm"⟩
          "cid" "k.dump.gz" "t" "local" 5 ⟨none, none, 42, "abc", "/b/k.dump.gz"⟩
          false).sidecarWritten = true)) ∧
    ((jobFinish ⟨true, "postgres", "c", "db", "* * * * *", "local", "", "", 0, "cid", "nm"⟩
        "cid" "k.dump.gz" "t" "local" 5 ⟨none, none, 42, "abc", "/b/k.dump.gz"⟩
        false).sidecarKey ≠ none →
      (jobFinish ⟨true, "postgres", "c", "db", "* * * * *", "local", "", "", 0, "cid", "nm"⟩
        "cid" "k.dump.gz" "t" "local" 5 ⟨none, none, 42, "abc", "/b/k.dump.gz"⟩
        false).payload.Success = true ∧ (0 : Int) < 42) :=
  C1_success_and_sidecar _ "cid" "k.dump.gz" "t" "local" 5
    ⟨none, none, 42, "abc", "/b/k.dump.gz"⟩ false

/-- C7: the `strings.HasPrefix` containment check of
`LocalWriter.DeleteObject` (and `ReadObject`) is a raw string-prefix
test, not the descendant containment the spec demands: with base
`/backups`, the key `../backups-evil/x.gz` resolves to
`/backups-evil/x.gz`, which is not a descendant of the base, yet the
guard passes and `os.Remove` runs on it.  The spec's own example
`../escape.gz` is refused, so the flaw is only in sibling directories
whose name extends the base name. -/
theorem C7_delete_guard_escapes_base :
    localDeleteTarget "/" "/backups" "../backups-evil/x.gz" = some "/backups-evil/x.gz" ∧
    isDescendant "/backups" "/backups-evil/x.gz" = false ∧
    localDeleteTarget "/" "/backups" "../escape.gz" = none ∧
    isDescendant "/backups" (goAbs "/" (joinPath "/backups" "../escape.gz")) = false := by
  decide

/-- C6: `parseRetentionDuration` matches the claimed grammar on the
claim's own examples ("0", "", "-5d" give 0; "7d", "10", "1h30m" parse),
but on the plain integer "200000" the Go conversion
`time.Duration(days) * 24 * time.Hour` overflows `int64` and the
function returns a negative duration instead of 200000 days,
contradicting both the claim and the function's own doc comment ("A
negative duration is not allowed and will result in 0"). -/
theorem C6_retention_overflow :
    parseRetentionDuration "200000" = -1166744073709551616 ∧
    parseRetentionDuration "200000" < 0 ∧
    parseRetentionDuration "0" = 0 ∧
    parseRetentionDuration "" = 0 ∧
    parseRetentionDuration "-5d" = 0 ∧
    parseRetentionDuration "7d" = 604800000000000 ∧
    parseRetentionDuration "10" = 864000000000000 ∧
    parseRetentionDuration "1h30m" = 5400000000000 ∧
    parseRetentionDuration "invalid" = 0 := by
  decide

/-- Counterexample to C3 as stated: with a configured secret, the
request built by `sendAttempt` carries no header named
`X-Signature-SHA256`; the signature header is named
`X-LabelBackup-Signature-SHA256`. -/
theorem C3_counterexample :
    ((sendAttempt [123, 125] "http://example/hook" "s").headers.map Prod.fst) =
      ["Content-Type", "User-Agent", "X-LabelBackup-Signature-SHA256"] ∧
    List.lookup "X-Signature-SHA256"
      (sendAttempt [123, 125] "http://example/hook" "s").headers = none := by
  constructor
  · simp [sendAttempt, HMACHeaderName]
  · simp [sendAttempt, List.lookup, HMACHeaderName]

/-- C3 (amended): for every webhook send attempt with a configured
secret, the POST request carries the header
`X-LabelBackup-Signature-SHA256` whose value is the lower-case hex
encoding of HMAC-SHA-256(secret, rawBody), computed over exactly the
JSON bytes delivered as the request body. -/
theorem C3_hmac_header (jsonData : List Nat) (targetURL secretKey : String)
    (h : secretKey ≠ "") :
    (sendAttempt jsonData targetURL secretKey).method = "POST" ∧
    (sendAttempt jsonData targetURL secretKey).body = jsonData ∧
    List.lookup HMACHeaderName (sendAttempt jsonData targetURL secretKey).headers =
      some (hexEncode (hmacSha256 (strBytes secretKey) jsonData)) ∧
    (∀ v, (HMACHeaderName, v) ∈ (sendAttempt jsonData targetURL secretKey).headers →
      v = hexEncode (hmacSha256 (strBytes secretKey)
        (sendAttempt jsonData targetURL secretKey).body)) := by
  refine ⟨rfl, rfl, ?_, ?_⟩
  · simp [sendAttempt, h, List.lookup, HMACHeaderName]
  · intro v hv
    simp [sendAttempt, h, HMACHeaderName] at hv
    simp [sendAttempt, hv]

/-- Witness for C3 (amended): the two-byte body `{}` with secret "s". -/
theorem C3_hmac_header_witness :
    (sendAttempt [123, 125] "http://example/hook" "s").method = "POST" ∧
    (sendAttempt [123, 125] "http://example/hook" "s").body = [123, 125] ∧
    List.lookup HMACHeaderName (sendAttempt [123, 125] "http://example/hook" "s").headers =
      some (hexEncode (hmacSha256 (strBytes "s") [123, 125])) ∧
    (∀ v, (HMACHeaderName, v) ∈ (sendAttempt [123, 125] "http://example/hook" "s").headers →
      v = hexEncode (hmacSha256 (strBytes "s")
        (sendAttempt [123, 125] "http://example/hook" "s").body)) :=
  C3_hmac_header [123, 125] "http://example/hook" "s" (by decide)

/-- C4: from a closed breaker with a clear failure counter and the
sender's threshold of 5, five consecutive failing sends (at any
instants, with any errors) leave the breaker Open with the fifth
failure's instant recorded; any call started strictly within the
recovery timeout of that last failure is answered
`shortCircuit "circuit breaker is open"` without invoking the wrapped
function (hence without HTTP I/O) and without changing the breaker. -/
theorem C4_breaker_opens_and_short_circuits (cb : CircuitBreaker)
    (h1 : cb.state = CBState.Closed) (h2 : cb.failureCount = 0)
    (h3 : cb.failureThreshold = 5)
    (t1 t2 t3 t4 t5 t : Int) (e1 e2 e3 e4 e5 : String) (fnRes : Option String)
    (hlt : t - t5 < cb.recoveryTimeout) :
    ((((((cb.Call t1 (some e1)).1.Call t2 (some e2)).1.Call t3 (some e3)).1.Call
        t4 (some e4)).1.Call t5 (some e5)).1.state = CBState.Open) ∧
    ((((((cb.Call t1 (some e1)).1.Call t2 (some e2)).1.Call t3 (some e3)).1.Call
        t4 (some e4)).1.Call t5 (some e5)).1.lastFailureTime = t5) ∧
    (((((((cb.Call t1 (some e1)).1.Call t2 (some e2)).1.Call t3 (some e3)).1.Call
        t4 (some e4)).1.Call t5 (some e5)).1.Call t fnRes) =
      ((((((cb.Call t1 (some e1)).1.Call t2 (some e2)).1.Call t3 (some e3)).1.Call
        t4 (some e4)).1.Call t5 (some e5)).1,
        CBOutcome.shortCircuit "circuit breaker is open")) := by
  obtain ⟨st, fc, lf, th, rt⟩ := cb
  simp only at h1 h2 h3 hlt
  subst h1 h2 h3
  simp only [CircuitBreaker.Call]
  norm_num
  omega

/-- Witness for C4: the sender's breaker (threshold 5, recovery 5 min)
with failures at instants 0..4 and a probe at instant 5. -/
theorem C4_breaker_witness :
    ((((((senderBreaker.Call 0 (some "e")).1.Call 1 (some "e")).1.Call 2
        (some "e")).1.Call 3 (some "e")).1.Call 4 (some "e")).1.state =
      CBState.Open) ∧
    ((((((senderBreaker.Call 0 (some "e")).1.Call 1 (some "e")).1.Call 2
        (some "e")).1.Call 3 (some "e")).1.Call 4 (some "e")).1.lastFailureTime = 4) ∧
    (((((((senderBreaker.Call 0 (some "e")).1.Call 1 (some "e")).1.Call 2
        (some "e")).1.Call 3 (some "e")).1.Call 4 (some "e")).1.Call 5 none) =
      ((((((senderBreaker.Call 0 (some "e")).1.Call 1 (some "e")).1.Call 2
        (some "e")).1.Call 3 (some "e")).1.Call 4 (some "e")).1,
        CBOutcome.shortCircuit "circuit breaker is open")) :=
  C4_breaker_opens_and_short_circuits senderBreaker rfl rfl rfl
    0 1 2 3 4 5 "e" "e" "e" "e" "e" none (by decide)

/-- Counterexample to C2 as stated: a label map with `backup.enabled` =
"true", a non-empty cron, a known type and a non-empty connection — all
of the claim's conditions — yields no spec, because `backup.dest` is
"s3" and `validateLabelValues` only accepts "local" or "remote". -/
theorem C2_counterexample :
    getLabel [("backup.enabled", "true"), ("backup.cron", "0 2 * * *"),
        ("backup.type", "postgres"), ("backup.conn", "postgresql://u@h/db"),
        ("backup.dest", "s3")] "backup.enabled" "" = "true" ∧
    getLabel [("backup.enabled", "true"), ("backup.cron", "0 2 * * *"),
        ("backup.type", "postgres"), ("backup.conn", "postgresql://u@h/db"),
        ("backup.dest", "s3")] "backup.cron" "" ≠ "" ∧
    getLabel [("backup.enabled", "true"), ("backup.cron", "0 2 * * *"),
        ("backup.type", "postgres"), ("backup.conn", "postgresql://u@h/db"),
        ("backup.dest", "s3")] "backup.type" "" ∈ validTypes ∧
    getLabel [("backup.enabled", "true"), ("backup.cron", "0 2 * * *"),
        ("backup.type", "postgres"), ("backup.conn", "postgresql://u@h/db"),
        ("backup.dest", "s3")] "backup.conn" "" ≠ "" ∧
    parseLabelsValidated [("backup.enabled", "true"), ("backup.cron", "0 2 * * *"),
        ("backup.type", "postgres"), ("backup.conn", "postgresql://u@h/db"),
        ("backup.dest", "s3")] "cid" "nm" = none := by
  decide

/-- C2 (amended): the revised label parsing (with `validateLabelValues`)
produces a spec iff `backup.enabled` is "true", `backup.cron` is
non-empty with at least 5 whitespace-separated fields, `backup.type` is
non-empty and lower-cases into {postgres, mysql, mongodb, redis},
`backup.conn` is non-empty unless the type is redis, and `backup.dest`
(defaulting to "local", lower-cased) is empty, "local" or "remote". -/
theorem C2_parse_iff (labels : Labels) (cid nm : String) :
    (parseLabelsValidated labels cid nm).isSome = true ↔
      (getLabel labels "backup.enabled" "" = "true" ∧
       getLabel labels "backup.cron" "" ≠ "" ∧
       getLabel labels "backup.type" "" ≠ "" ∧
       (getLabel labels "backup.conn" "" ≠ "" ∨
         goToLower (getLabel labels "backup.type" "") = "redis") ∧
       goToLower (getLabel labels "backup.type" "") ∈ validTypes ∧
       (goToLower (getLabel labels "backup.dest" "local") = "" ∨
         goToLower (getLabel labels "backup.dest" "local") = "local" ∨
         goToLower (getLabel labels "backup.dest" "local") = "remote") ∧
       5 ≤ (goFields (getLabel labels "backup.cron" "")).length) := by
  unfold parseLabelsValidated parseLabels
  by_cases he : getLabel labels "backup.enabled" "" = "true"
  · by_cases hc : getLabel labels "backup.cron" "" = ""
    · simp [he, hc]
    · by_cases ht : getLabel labels "backup.type" "" = ""
      · simp [he, hc, ht]
      · by_cases hcn : getLabel labels "backup.conn" "" = "" ∧
            goToLower (getLabel labels "backup.type" "") ≠ "redis"
        · simp [he, hc, ht, hcn]
        · simp [he, hc, ht, hcn, validateLabelValues, validTypes, apply_ite Option.isSome]
          push_neg at hcn
          tauto
  · simp [he]

/-- Witness for C2 (amended) at a spec that parses: the iff holds with
both sides true on a complete postgres label set. -/
theorem C2_parse_iff_witness :
    (parseLabelsValidated [("backup.enabled", "true"), ("backup.cron", "0 2 * * *"),
        ("backup.type", "postgres"), ("backup.conn", "c")] "cid" "nm").isSome = true ∧
    ((parseLabelsValidated [("backup.enabled", "true"), ("backup.cron", "0 2 * * *"),
        ("backup.type", "postgres"), ("backup.conn", "c")] "cid" "nm").isSome = true ↔
      (getLabel [("backup.enabled", "true"), ("backup.cron", "0 2 * * *"),
          ("backup.type", "postgres"), ("backup.conn", "c")] "backup.enabled" "" = "true" ∧
       getLabel [("backup.enabled", "true"), ("backup.cron", "0 2 * * *"),
          ("backup.type", "postgres"), ("backup.conn", "c")] "backup.cron" "" ≠ "" ∧
       getLabel [("backup.enabled", "true"), ("backup.cron", "0 2 * * *"),
          ("backup.type", "postgres"), ("backup.conn", "c")] "backup.type" "" ≠ "" ∧
       (getLabel [("backup.enabled", "true"), ("backup.cron", "0 2 * * *"),
          ("backup.type", "postgres"), ("backup.conn", "c")] "backup.conn" "" ≠ "" ∨
         goToLower (getLabel [("backup.enabled", "true"), ("backup.cron", "0 2 * * *"),
          ("backup.type", "postgres"), ("backup.conn", "c")] "backup.type" "") = "redis") ∧
       goToLower (getLabel [("backup.enabled", "true"), ("backup.cron", "0 2 * * *"),
          ("backup.type", "postgres"), ("backup.conn", "c")] "backup.type" "") ∈ validTypes ∧
       (goToLower (getLabel [("backup.enabled", "true"), ("backup.cron", "0 2 * * *"),
          ("backup.type", "postgres"), ("backup.conn", "c")] "backup.dest" "local") = "" ∨
         goToLower (getLabel [("backup.enabled", "true"), ("backup.cron", "0 2 * * *"),
          ("backup.type", "postgres"), ("backup.conn", "c")] "backup.dest" "local") = "local" ∨
         goToLower (getLabel [("backup.enabled", "true"), ("backup.cron", "0 2 * * *"),
          ("backup.type", "postgres"), ("backup.conn", "c")] "backup.dest" "local") = "remote") ∧
       5 ≤ (goFields (getLabel [("backup.enabled", "true"), ("backup.cron", "0 2 * * *"),
          ("backup.type", "postgres"), ("backup.conn", "c")] "backup.cron" "")).length)) :=
  ⟨by decide,
   C2_parse_iff [("backup.enabled", "true"), ("backup.cron", "0 2 * * *"),
      ("backup.type", "postgres"), ("backup.conn", "c")] "cid" "nm"⟩

/-- Looking a key up in two pointwise-congruent label maps yields either
no value on both sides, or two values related as the key demands. -/
theorem labelRel_lookup (k : String) (l1 l2 : Labels)
    (h : List.Forall₂ labelValuesCongruent l1 l2) :
    (List.lookup k l1 = none ∧ List.lookup k l2 = none) ∨
    (∃ v1 v2, List.lookup k l1 = some v1 ∧ List.lookup k l2 = some v2 ∧
      (if k = "backup.type" ∨ k = "backup.dest"
        then goToLower (goTrimSpace v1) = goToLower (goTrimSpace v2)
        else goTrimSpace v1 = goTrimSpace v2)) := by
  induction h with
  | nil => exact Or.inl ⟨rfl, rfl⟩
  | @cons p q t1 t2 hpq htail ih =>
    obtain ⟨hk, hv⟩ := hpq
    by_cases hkp : k = p.1
    · right
      refine ⟨p.2, q.2, ?_, ?_, ?_⟩
      · have b1 : (k == p.1) = true := by simpa using hkp
        simp [List.lookup, b1]
      · have b2 : (k == q.1) = true := by simp [hkp, hk]
        simp [List.lookup, b2]
      · rw [hkp]
        exact hv
    · have hkq : ¬ k = q.1 := by rw [← hk]; exact hkp
      have b1 : (k == p.1) = false := by simpa using hkp
      have b2 : (k == q.1) = false := by simpa using hkq
      simp only [List.lookup, b1, b2]
      exact ih

/-- `getLabel` agrees on congruent label maps for the keys whose values
are compared after trimming only. -/
theorem labelRel_getLabel (l1 l2 : Labels)
    (h : List.Forall₂ labelValuesCongruent l1 l2) (k d : String)
    (hk : ¬(k = "backup.type" ∨ k = "backup.dest")) :
    getLabel l1 k d = getLabel l2 k d := by
  rcases labelRel_lookup k l1 l2 h with ⟨h1, h2⟩ | ⟨v1, v2, h1, h2, hv⟩
  · simp [getLabel, h1, h2]
  · rw [if_neg hk] at hv
    simp [getLabel, h1, h2, hv]

/-- `getLabel` agrees up to lower-casing on congruent label maps for
`backup.type` and `backup.dest`. -/
theorem labelRel_getLabel_lower (l1 l2 : Labels)
    (h : List.Forall₂ labelValuesCongruent l1 l2) (k d : String)
    (hk : k = "backup.type" ∨ k = "backup.dest") :
    goToLower (getLabel l1 k d) = goToLower (getLabel l2 k d) := by
  rcases labelRel_lookup k l1 l2 h with ⟨h1, h2⟩ | ⟨v1, v2, h1, h2, hv⟩
  · simp [getLabel, h1, h2]
  · rw [if_pos hk] at hv
    simp [getLabel, h1, h2, hv]

/-- ASCII lower-casing preserves emptiness. -/
theorem goToLower_eq_empty (s : String) : goToLower s = "" ↔ s = "" := by
  cases s with
  | mk data =>
    simp [goToLower, String.ext_iff]

/-- `parseLabels` depends on the label map only through the trimmed
values, and on `backup.type` / `backup.dest` only through their
lower-casings. -/
theorem parseLabels_congr (l1 l2 : Labels) (cid nm : String)
    (he : getLabel l1 "backup.enabled" "" = getLabel l2 "backup.enabled" "")
    (hc : getLabel l1 "backup.cron" "" = getLabel l2 "backup.cron" "")
    (htL : goToLower (getLabel l1 "backup.type" "") = goToLower (getLabel l2 "backup.type" ""))
    (hcn : getLabel l1 "backup.conn" "" = getLabel l2 "backup.conn" "")
    (hdb : getLabel l1 "backup.database" "" = getLabel l2 "backup.database" "")
    (hds : goToLower (getLabel l1 "backup.dest" "local") =
      goToLower (getLabel l2 "backup.dest" "local"))
    (hpf : getLabel l1 "backup.prefix" "" = getLabel l2 "backup.prefix" "")
    (hwh : getLabel l1 "backup.webhook" "" = getLabel l2 "backup.webhook" "")
    (hrt : getLabel l1 "backup.retention" "" = getLabel l2 "backup.retention" "") :
    parseLabels l1 cid nm = parseLabels l2 cid nm := by
  have e1 := goToLower_eq_empty (getLabel l1 "backup.type" "")
  have e2 := goToLower_eq_empty (getLabel l2 "backup.type" "")
  have htE : (getLabel l1 "backup.type" "" = "") = (getLabel l2 "backup.type" "" = "") := by
    apply propext
    rw [← e1, ← e2, htL]
  simp only [parseLabels]
  rw [he, hc, hcn, hdb, hds, hpf, hwh, hrt, htL]
  simp only [htE]

/-- Every spec produced by `parseLabels` stores the container name with
one leading '/' stripped. -/
theorem parseLabels_containerName (labels : Labels) (cid nm : String)
    (spec : BackupSpec) (h : parseLabels labels cid nm = some spec) :
    spec.ContainerName = goTrimLead nm "/" := by
  simp only [parseLabels] at h
  split at h
  · simp at h
  · split at h
    · simp at h
    · split at h
      · simp at h
      · split at h
        · simp at h
        · obtain rfl := (Option.some.inj h).symm
          rfl

/-- C10: label parsing trims surrounding whitespace from every label
value and lower-cases `backup.type` and `backup.dest` before use: two
label maps whose values agree after trimming (and, for type/dest, after
lower-casing too) produce the same parse result; and any produced spec
stores the container name with a leading '/' stripped. -/
theorem C10_parse_normalisation (l1 l2 : Labels) (cid nm : String)
    (h : List.Forall₂ labelValuesCongruent l1 l2) :
    parseLabels l1 cid nm = parseLabels l2 cid nm ∧
    (∀ spec, parseLabels l1 cid nm = some spec →
      spec.ContainerName = goTrimLead nm "/") := by
  refine ⟨?_, fun spec hs => parseLabels_containerName l1 cid nm spec hs⟩
  apply parseLabels_congr <;>
    first
      | exact labelRel_getLabel l1 l2 h _ _ (by decide)
      | exact labelRel_getLabel_lower l1 l2 h _ _ (by decide)

/-- Witness for C10: two maps differing in whitespace padding and in the
case of `backup.type`, on a container name with a leading slash. -/
theorem C10_parse_normalisation_witness :
    parseLabels [("backup.enabled", "true"), ("backup.cron", "0 2 * * *"),
        ("backup.type", " Postgres "), ("backup.conn", " c ")] "cid" "/nm" =
      parseLabels [("backup.enabled", " true "), ("backup.cron", "0 2 * * *"),
        ("backup.type", "postgres"), ("backup.conn", "c")] "cid" "/nm" ∧
    (∀ spec, parseLabels [("backup.enabled", "true"), ("backup.cron", "0 2 * * *"),
        ("backup.type", " Postgres "), ("backup.conn", " c ")] "cid" "/nm" = some spec →
      spec.ContainerName = goTrimLead "/nm" "/") :=
  C10_parse_normalisation _ _ "cid" "/nm" (by decide)
